import Mathlib

/-!
# Verification of the `stump` logging library (src/src/lib.rs)

Shallow embedding of the library's data model and operations in Lean 4.
Strings are modelled as `List Char`; Rust's UTF-8 byte-level operations
(`str::len`, byte-range slicing) are modelled through `Char.utf8Size`.
Process-wide mutable statics (`MIN_LOG_LEVEL`, `PRINT`) are modelled by
explicit parameters and explicit output-state passing.  Rust operations
that can panic (checked integer subtraction underflow, byte slicing at a
non-character boundary, out-of-range slicing) return `Except FmtPanic`.
-/

/-- The four logging output levels, with the discriminants from the source:
`ERROR = 0x0, WARN = 0x1, INFO = 0x2, DEBUG = 0x3`.  The derived Rust
`Ord` compares these discriminants; `ordinal` exposes them. -/
inductive LogEntryLevel
  | ERROR
  | WARN
  | INFO
  | DEBUG
deriving DecidableEq, Fintype

/-- The enum discriminant of each level, as written in the source
(`ERROR = 0x0`, `WARN = 0x1`, `INFO = 0x2`, `DEBUG = 0x3`).  The derived
`PartialOrd`/`Ord` used by `status_at_or_above!` compares these values. -/
def LogEntryLevel.ordinal : LogEntryLevel → Nat
  | .ERROR => 0
  | .WARN => 1
  | .INFO => 2
  | .DEBUG => 3

/-- The single error kind of the library: `anyhow!("Invalid log level: {}", s)`
carries the offending input text. -/
inductive StumpError
  | invalidLogLevel (s : List Char)
deriving DecidableEq

/-- One character of Rust's `str::to_uppercase` (the locale-independent
Unicode uppercase mapping, which can expand one character to several):
ASCII lowercase maps to ASCII uppercase (as in Rust); U+0131 `ı` maps to
`I` and U+017F `ſ` maps to `S` — the only two non-ASCII code points whose
Unicode uppercase is a single ASCII letter; every other character is kept
unchanged.  This departs from Rust only where Rust's output contains no
character of the four level names: the remaining single-character mappings
target non-ASCII characters, and the SpecialCasing expansions whose output
is ASCII (`SS`, `FF`, `FI`, `FL`, `FFI`, `FFL`, `ST`) occur as a substring
of none of `DEBUG`/`INFO`/`WARN`/`ERROR`; so on both sides such characters
make the `from_string` match fail, and the model computes `from_string`'s
success/failure partition exactly. -/
def rustToUpperChar (c : Char) : List Char :=
  if c = 'ı' then ['I']
  else if c = 'ſ' then ['S']
  else [c.toUpper]

/-- Rust `str::to_uppercase`: each character's Unicode uppercase,
concatenated. -/
def rustToUppercase (s : List Char) : List Char :=
  s.flatMap rustToUpperChar

/-- `LogEntryLevel::from_string`: uppercases the input with
`str::to_uppercase` and matches it against the four level names, returning
an `Invalid log level` error carrying the original input otherwise. -/
def LogEntryLevel.from_string (s : List Char) : Except StumpError LogEntryLevel :=
  if rustToUppercase s = "DEBUG".toList then .ok .DEBUG
  else if rustToUppercase s = "INFO".toList then .ok .INFO
  else if rustToUppercase s = "WARN".toList then .ok .WARN
  else if rustToUppercase s = "ERROR".toList then .ok .ERROR
  else .error (.invalidLogLevel s)

/-- Spec-side definition, modelled from the claim's words: `s` is `t`
"in some letter case" when each character of `s` is the corresponding
character of `t` or its lowercase form. -/
def caseChoiceOf : List Char → List Char → Bool
  | [], [] => true
  | c :: s, d :: t =>
      (decide (c = d) || decide (c = d.toLower)) && caseChoiceOf s t
  | _, _ => false

/-- The canonical (uppercase) name each `from_string` match arm accepts. -/
def LogEntryLevel.canonicalName : LogEntryLevel → List Char
  | .DEBUG => "DEBUG".toList
  | .INFO => "INFO".toList
  | .WARN => "WARN".toList
  | .ERROR => "ERROR".toList

/-- Initial value of the static `MIN_LOG_LEVEL`:
`static mut MIN_LOG_LEVEL: LogEntryLevel = LogEntryLevel::WARN;`. -/
def MIN_LOG_LEVEL_initial : LogEntryLevel := .WARN

/-- `get_min_log_level`: returns the current value of the `MIN_LOG_LEVEL`
static (passed explicitly); does not consult the environment. -/
def get_min_log_level (minLogLevel : LogEntryLevel) : LogEntryLevel :=
  minLogLevel

/-- `LogEntryLevel::from_env`: if the level environment variable
(`STUMP_LOG_AT_LEVEL` by default) is set, parse it with `from_string`
(propagating the parse error); if unset, return the current `MIN_LOG_LEVEL`
static.  The environment binding and the static are passed explicitly. -/
def LogEntryLevel.from_env (envVar : Option (List Char))
    (minLogLevel : LogEntryLevel) : Except StumpError LogEntryLevel :=
  match envVar with
  | some e => LogEntryLevel.from_string e
  | none => .ok minLogLevel

/-- The gating decision of the `status_at_or_above!` macro: the message is
emitted exactly when `from_env` succeeds with some level `m` and
`m >= level` under the derived discriminant order, i.e.
`level.ordinal ≤ m.ordinal`.  A parse error causes the `if let Ok(..)`
to fail, so nothing is emitted. -/
def status_at_or_above_emits (envVar : Option (List Char))
    (minLogLevel level : LogEntryLevel) : Bool :=
  match LogEntryLevel.from_env envVar minLogLevel with
  | .ok m => decide (level.ordinal ≤ m.ordinal)
  | .error _ => false

/-- Spec-side definition (the spec's chosen total order, not from the source):
verbosity of each level, `DEBUG` being the most verbose:
verbosity DEBUG = 3 > INFO = 2 > WARN = 1 > ERROR = 0. -/
def specVerbosity : LogEntryLevel → Nat
  | .DEBUG => 3
  | .INFO => 2
  | .WARN => 1
  | .ERROR => 0

/-- Spec-side definition (not from the source): the rank of each level in the
spec's chosen total order `DEBUG < INFO < WARN < ERROR`; "raising" the
minimum level means moving to a strictly larger rank. -/
def specRank : LogEntryLevel → Nat
  | .DEBUG => 0
  | .INFO => 1
  | .WARN => 2
  | .ERROR => 3

/-- The completion statuses: `enum CompleteStatus { OK, WARN, FAIL }`. -/
inductive CompleteStatus
  | OK
  | WARN
  | FAIL
deriving DecidableEq

/-- The visible status tag text chosen by the `match` in `format_complete`
(`DONE`/`WARN`/`FAIL`); the `colored` escape codes around it are cosmetic
and excluded from the model, as the spec excludes them from length checks. -/
def CompleteStatus.tagText : CompleteStatus → List Char
  | .OK => "DONE".toList
  | .WARN => "WARN".toList
  | .FAIL => "FAIL".toList

/-- The panics `format_complete` can hit: checked-subtraction underflow of
`width as usize - 8` when `width < 8`, a byte-range slice whose end is not a
character boundary, and a byte-range slice past the end of the string. -/
inductive FmtPanic
  | subUnderflow
  | charBoundary
  | outOfRange
deriving DecidableEq

/-- Rust `str::len`: the length in UTF-8 bytes of a string. -/
def utf8Length (s : List Char) : Nat :=
  (s.map Char.utf8Size).sum

/-- Rust `format!("{: <80}", s)`: left-justify and pad with spaces on the
right to a minimum field width of 80 *characters* (Rust's formatter counts
`chars()`, not bytes). -/
def padRight80 (s : List Char) : List Char :=
  s ++ List.replicate (80 - s.length) ' '

/-- Rust `&s[0..n]`: the prefix covering the first `n` UTF-8 bytes.  Panics
(modelled as `Except.error`) when `n` exceeds the byte length or falls
strictly inside a multi-byte character. -/
def byteSlice : List Char → Nat → Except FmtPanic (List Char)
  | _, 0 => .ok []
  | [], _ + 1 => .error .outOfRange
  | c :: rest, n + 1 =>
      if c.utf8Size ≤ n + 1 then
        (byteSlice rest (n + 1 - c.utf8Size)).map (fun t => c :: t)
      else .error .charBoundary

/-- `format_complete`: width is `min(detected terminal columns, 88)`, or 88
when the terminal size is undetectable (`termsize::get()` returns `None`).
The label is padded to 80 characters; if its *byte* length exceeds
`width - 8` it is truncated to the first `width - 8` bytes; the bracketed
status tag is appended.  `width as usize - 8` is a checked `usize`
subtraction, so `width < 8` underflows (a panic in a checked build);
the byte slice panics off a character boundary. -/
def format_complete (file_base_name : List Char) (termCols : Option Nat)
    (status : CompleteStatus) : Except FmtPanic (List Char) :=
  let width := match termCols with
    | some cols => if cols < 88 then cols else 88
    | none => 88
  if width < 8 then
    .error .subUnderflow
  else
    let formatted := padRight80 file_base_name
    match (if utf8Length formatted > width - 8 then
            byteSlice formatted (width - 8)
           else
            .ok formatted : Except FmtPanic (List Char)) with
    | .ok sliced => .ok (sliced ++ ("[ ".toList ++ status.tagText ++ " ]".toList))
    | .error e => .error e

/-- Decidable equality on `Except`, for evaluating the model on concrete
inputs. -/
instance {ε α : Type} [DecidableEq ε] [DecidableEq α] :
    DecidableEq (Except ε α)
  | .ok a, .ok b =>
      if h : a = b then .isTrue (by rw [h])
      else .isFalse (by simp [h])
  | .ok _, .error _ => .isFalse (fun h => Except.noConfusion h)
  | .error _, .ok _ => .isFalse (fun h => Except.noConfusion h)
  | .error e, .error f =>
      if h : e = f then .isTrue (by rw [h])
      else .isFalse (by simp [h])

/-- Observable output of the process: the ordered sequence of strings
delivered to the user-installed override callback (`PRINT`), and the ordered
sequence of lines written to standard output. -/
structure OutputState where
  overrideOut : List (List Char)
  stdout : List (List Char)
deriving DecidableEq

/-- `do_println`: if an override callback is installed (`PRINT` is `Some`),
deliver the string to it; otherwise `println!` it to standard output. -/
def do_println (overrideInstalled : Bool) (s : List Char)
    (st : OutputState) : OutputState :=
  if overrideInstalled then
    { st with overrideOut := st.overrideOut ++ [s] }
  else
    { st with stdout := st.stdout ++ [s] }

/-- The `status!` macro: it expands to a direct `println!`, writing the
formatted line to standard output.  It never consults the `PRINT` override,
so `overrideInstalled` is unused — faithful to the source.  The formatted
line (datetime, level tag, file:line, payload) is abstracted as `msg`. -/
def status_println (overrideInstalled : Bool) (msg : List Char)
    (st : OutputState) : OutputState :=
  { st with stdout := st.stdout ++ [msg] }

/-- The `status_at_or_above!` macro as a state transformer: when `from_env`
succeeds with `m` and `m >= level` under the derived order, the line is
printed via `status!`; otherwise the state is unchanged (a parse error is a
silent no-op: the `if let Ok(..)` simply does not match). -/
def status_at_or_above_println (envVar : Option (List Char))
    (minLogLevel level : LogEntryLevel) (overrideInstalled : Bool)
    (msg : List Char) (st : OutputState) : OutputState :=
  match LogEntryLevel.from_env envVar minLogLevel with
  | .ok m =>
      if level.ordinal ≤ m.ordinal then status_println overrideInstalled msg st
      else st
  | .error _ => st

/-- `print_complete`: formats the completion message and hands it to
`do_println`. -/
def print_complete (file_base_name : List Char) (status : CompleteStatus)
    (termCols : Option Nat) (overrideInstalled : Bool)
    (st : OutputState) : Except FmtPanic OutputState :=
  (format_complete file_base_name termCols status).map
    (fun s => do_println overrideInstalled s st)

/-- `print_done`: `print_complete` with `CompleteStatus::OK`. -/
def print_done (file_base_name : List Char) (termCols : Option Nat)
    (overrideInstalled : Bool) (st : OutputState) :
    Except FmtPanic OutputState :=
  print_complete file_base_name .OK termCols overrideInstalled st

/-- `print_warn`: `print_complete` with `CompleteStatus::WARN`. -/
def print_warn_complete (file_base_name : List Char) (termCols : Option Nat)
    (overrideInstalled : Bool) (st : OutputState) :
    Except FmtPanic OutputState :=
  print_complete file_base_name .WARN termCols overrideInstalled st

/-- `print_fail`: `print_complete` with `CompleteStatus::FAIL`. -/
def print_fail (file_base_name : List Char) (termCols : Option Nat)
    (overrideInstalled : Bool) (st : OutputState) :
    Except FmtPanic OutputState :=
  print_complete file_base_name .FAIL termCols overrideInstalled st

/-- C1: with the environment variable unset, a leveled logging operation at
level `C` under programmatic minimum `M` emits iff `C`'s verbosity is at most
`M`'s verbosity; minimum `WARN` emits `WARN` and `ERROR` and suppresses
`INFO` and `DEBUG`; and raising `M` in the chosen total order
`DEBUG < INFO < WARN < ERROR` strictly shrinks the accepted set. -/
theorem gate_iff_verbosity_le_and_monotone :
    (∀ M C : LogEntryLevel,
      status_at_or_above_emits none M C = true ↔ specVerbosity C ≤ specVerbosity M)
    ∧ (status_at_or_above_emits none .WARN .WARN = true
        ∧ status_at_or_above_emits none .WARN .ERROR = true
        ∧ status_at_or_above_emits none .WARN .INFO = false
        ∧ status_at_or_above_emits none .WARN .DEBUG = false)
    ∧ (∀ M M' : LogEntryLevel, specRank M < specRank M' →
        (∀ C, status_at_or_above_emits none M' C = true →
          status_at_or_above_emits none M C = true)
        ∧ (∃ C, status_at_or_above_emits none M C = true
            ∧ status_at_or_above_emits none M' C = false)) := by
  refine ⟨?_, by decide, ?_⟩ <;> decide

/-- C1 witness: instance at `M = WARN`, `M' = ERROR` (raising the minimum
from WARN to ERROR), discharging the rank hypothesis concretely. -/
theorem gate_monotone_witness :
    (∀ C, status_at_or_above_emits none .ERROR C = true →
      status_at_or_above_emits none .WARN C = true)
    ∧ (∃ C, status_at_or_above_emits none .WARN C = true
        ∧ status_at_or_above_emits none .ERROR C = false) :=
  gate_iff_verbosity_le_and_monotone.2.2 .WARN .ERROR (by decide)

/-- C3: when the environment variable holds a string that parses as level `E`,
the gating decision at every candidate level `C` equals the decision made
with minimum `E` and the variable unset, for every programmatic minimum `M`:
the emitted set is exactly the set admitted by minimum `E`, regardless
of `M`. -/
theorem env_override_decides_gating (e : List Char) (E M C : LogEntryLevel)
    (h : LogEntryLevel.from_string e = .ok E) :
    status_at_or_above_emits (some e) M C = status_at_or_above_emits none E C := by
  simp [status_at_or_above_emits, LogEntryLevel.from_env, h]

/-- C3 witness: `STUMP_LOG_AT_LEVEL="warn"` parses to `WARN`, and with
programmatic minimum `DEBUG`, gating an `INFO` message follows `WARN`. -/
theorem env_override_decides_gating_witness :
    LogEntryLevel.from_string "warn".toList = .ok .WARN
    ∧ status_at_or_above_emits (some "warn".toList) .DEBUG .INFO
        = status_at_or_above_emits none .WARN .INFO :=
  ⟨rfl, env_override_decides_gating "warn".toList .WARN .DEBUG .INFO rfl⟩

/-- C4 counterexample: with the environment variable set to the unparsable
string `"BOGUS"` and programmatic minimum `WARN`, an `ERROR`-level message is
NOT emitted, although minimum `WARN` admits `ERROR`; so the emitted set does
not fall back to the set admitted by the programmatic minimum. -/
theorem invalid_env_does_not_fall_back :
    status_at_or_above_emits (some "BOGUS".toList) .WARN .ERROR = false
    ∧ status_at_or_above_emits none .WARN .ERROR = true := by
  constructor <;> rfl

/-- C4 amended: when the environment variable is unset, gating falls back to
the programmatic minimum `M` (the emitted set is exactly the levels whose
verbosity is at most `M`'s), without raising; when it is set to a string that
does not parse, the gate emits nothing (fail closed) rather than falling
back to `M`. -/
theorem env_fallback_amended :
    (∀ M C : LogEntryLevel,
      status_at_or_above_emits none M C = true ↔ specVerbosity C ≤ specVerbosity M)
    ∧ (∀ (e : List Char) (err : StumpError) (M C : LogEntryLevel),
        LogEntryLevel.from_string e = .error err →
        status_at_or_above_emits (some e) M C = false) := by
  refine ⟨by decide, fun e err M C h => ?_⟩
  simp [status_at_or_above_emits, LogEntryLevel.from_env, h]

/-- C4 witness: instance of the amended claim at the unparsable value
`"BOGUS"`, minimum `WARN`, candidate `ERROR`. -/
theorem env_fallback_amended_witness :
    status_at_or_above_emits (some "BOGUS".toList) .WARN .ERROR = false :=
  env_fallback_amended.2 "BOGUS".toList
    (.invalidLogLevel "BOGUS".toList) .WARN .ERROR rfl

/-- C5: when the environment variable is set to a string that fails to parse,
every gated leveled logging operation is a silent no-op: the output state is
returned unchanged for every minimum, candidate level, override flag and
message, and no error is propagated (the operation is total). -/
theorem invalid_env_fail_closed (e : List Char) (err : StumpError)
    (M C : LogEntryLevel) (ov : Bool) (msg : List Char) (st : OutputState)
    (h : LogEntryLevel.from_string e = .error err) :
    status_at_or_above_println (some e) M C ov msg st = st := by
  simp [status_at_or_above_println, LogEntryLevel.from_env, h]

/-- C5 witness: `STUMP_LOG_AT_LEVEL="TRACE"` does not parse; an `ERROR`-level
message under minimum `DEBUG` emits nothing. -/
theorem invalid_env_fail_closed_witness :
    status_at_or_above_println (some "TRACE".toList) .DEBUG .ERROR false
      "disk full".toList ⟨[], []⟩ = ⟨[], []⟩ :=
  invalid_env_fail_closed "TRACE".toList (.invalidLogLevel "TRACE".toList)
    .DEBUG .ERROR false "disk full".toList ⟨[], []⟩ rfl

/-- C9 counterexample: `from_string` does not succeed only on the four
names in a letter case: the input `ınfo` (with U+0131 dotless `ı`, whose
Unicode uppercase is `I`) parses to `INFO`, although it is none of the four
level names written in some letter case (the lowercase of `I` is `i`,
not `ı`). -/
theorem from_string_accepts_non_case_variant :
    LogEntryLevel.from_string ['ı', 'n', 'f', 'o'] = .ok .INFO
    ∧ (∀ l : LogEntryLevel,
        caseChoiceOf ['ı', 'n', 'f', 'o'] l.canonicalName = false) := by
  exact ⟨rfl, by decide⟩

/-- C9 amended: `from_string` succeeds on exactly the strings whose Unicode
uppercasing (Rust's `str::to_uppercase`) is one of the four level names —
all of their letter-case variants, and additionally strings such as `ınfo`
whose characters uppercase into the name — returning the corresponding
level, and on every other string fails with `Invalid log level` carrying
the original input text. -/
theorem from_string_exact (s : List Char) :
    (∀ l : LogEntryLevel,
      LogEntryLevel.from_string s = .ok l ↔ rustToUppercase s = l.canonicalName)
    ∧ ((∀ l : LogEntryLevel, rustToUppercase s ≠ l.canonicalName) →
      LogEntryLevel.from_string s = .error (.invalidLogLevel s)) := by
  have hDI : ("DEBUG".toList : List Char) ≠ "INFO".toList := by decide
  have hDW : ("DEBUG".toList : List Char) ≠ "WARN".toList := by decide
  have hDE : ("DEBUG".toList : List Char) ≠ "ERROR".toList := by decide
  have hIW : ("INFO".toList : List Char) ≠ "WARN".toList := by decide
  have hIE : ("INFO".toList : List Char) ≠ "ERROR".toList := by decide
  have hWE : ("WARN".toList : List Char) ≠ "ERROR".toList := by decide
  unfold LogEntryLevel.from_string
  refine ⟨fun l => ?_, fun hall => ?_⟩
  · split_ifs with h1 h2 h3 h4 <;> cases l <;>
      simp_all [LogEntryLevel.canonicalName]
  · split_ifs with h1 h2 h3 h4
    · exact absurd h1 (hall .DEBUG)
    · exact absurd h2 (hall .INFO)
    · exact absurd h3 (hall .WARN)
    · exact absurd h4 (hall .ERROR)
    · rfl

/-- C9 witness: `"info"` parses to `INFO` (a letter-case variant), and
`"xyz"` fails with the error carrying the original text. -/
theorem from_string_exact_witness :
    LogEntryLevel.from_string "info".toList = .ok .INFO
    ∧ LogEntryLevel.from_string "xyz".toList
        = .error (.invalidLogLevel "xyz".toList) :=
  ⟨((from_string_exact "info".toList).1 .INFO).2 (by decide),
    (from_string_exact "xyz".toList).2 (by decide)⟩

/-- C10: before any call to `set_min_log_level`, the static minimum is `WARN`:
`get_min_log_level()` returns `WARN`, and `from_env` with the environment
variable unset also returns `WARN` — not the `INFO` its documentation
suggests. -/
theorem default_min_level_warn :
    get_min_log_level MIN_LOG_LEVEL_initial = .WARN
    ∧ LogEntryLevel.from_env none MIN_LOG_LEVEL_initial = .ok .WARN
    ∧ LogEntryLevel.from_env none MIN_LOG_LEVEL_initial ≠ .ok .INFO := by
  refine ⟨rfl, rfl, fun h => ?_⟩
  exact LogEntryLevel.noConfusion (Except.ok.inj h)

/-- Helper: `byteSlice` at closed width 88 — the width arithmetic reduces. -/
theorem format_complete_some88 (label : List Char) (status : CompleteStatus) :
    format_complete label (some 88) status =
      match (if utf8Length (padRight80 label) > 80 then
              byteSlice (padRight80 label) 80
             else .ok (padRight80 label) : Except FmtPanic (List Char)) with
      | .ok sliced =>
          .ok (sliced ++ ("[ ".toList ++ status.tagText ++ " ]".toList))
      | .error e => .error e := rfl

/-- Helper: `utf8Length` of a string of one-byte characters is its length. -/
theorem utf8Length_onebyte (s : List Char) (h : ∀ c ∈ s, c.utf8Size = 1) :
    utf8Length s = s.length := by
  induction s with
  | nil => rfl
  | cons c rest ih =>
      have hc : c.utf8Size = 1 := h c (by simp)
      have hr := ih (fun x hx => h x (List.mem_cons_of_mem c hx))
      simp only [utf8Length, List.map_cons, List.sum_cons, List.length_cons] at hr ⊢
      omega

/-- Helper: padding a short string of one-byte characters gives 80 bytes. -/
theorem utf8Length_padRight80_onebyte (s : List Char)
    (h : ∀ c ∈ s, c.utf8Size = 1) (hle : s.length ≤ 80) :
    utf8Length (padRight80 s) = 80 := by
  have hall : ∀ c ∈ padRight80 s, c.utf8Size = 1 := by
    intro c hc
    rcases List.mem_append.mp hc with hc | hc
    · exact h c hc
    · rw [List.eq_of_mem_replicate hc]; rfl
  rw [utf8Length_onebyte _ hall]
  simp only [padRight80, List.length_append, List.length_replicate]
  omega

/-- Helper: slicing a string of one-byte characters at an in-range byte
boundary takes exactly that many characters. -/
theorem byteSlice_onebyte (s : List Char) :
    ∀ n : Nat, (∀ c ∈ s, c.utf8Size = 1) → n ≤ s.length →
      byteSlice s n = .ok (s.take n) := by
  induction s with
  | nil =>
      intro n _ hn
      have : n = 0 := Nat.le_zero.mp (by simpa using hn)
      subst this
      rfl
  | cons c rest ih =>
      intro n h hn
      cases n with
      | zero => rfl
      | succ m =>
          have hc : c.utf8Size = 1 := h c (by simp)
          have hrest : ∀ x ∈ rest, x.utf8Size = 1 :=
            fun x hx => h x (List.mem_cons_of_mem c hx)
          have hm : m ≤ rest.length := by simpa using Nat.le_of_succ_le_succ hn
          simp only [byteSlice]
          rw [hc, if_pos (by omega : (1 : Nat) ≤ m + 1)]
          rw [show m + 1 - 1 = m from rfl]
          rw [ih m hrest hm]
          rfl

/-- C2 (code bug): `format_complete` can panic.  With a detected terminal
width of 9 and a label holding the two-byte character `é`, the byte slice
`&formatted[0..1]` ends inside the character — a char-boundary panic — and
with width 7 the checked subtraction `width as usize - 8` underflows, so the
label portion is not clamped to the empty string as the claim requires. -/
theorem format_complete_panics_on_pathological_inputs :
    format_complete ['é'] (some 9) .OK = .error .charBoundary
    ∧ format_complete "x".toList (some 7) .OK = .error .subUnderflow := by
  constructor <;> rfl

/-- C6 counterexample: the label `"é"` has 1 ≤ 80 characters, yet on a
width-88 terminal `format_complete` returns a string of 87 visible
characters, not 88, and not the label space-padded to 80 characters plus
the tag: the padding counts characters while the truncation counts bytes. -/
theorem format_complete_multibyte_shorter :
    (['é'] : List Char).length ≤ 80
    ∧ (format_complete ['é'] (some 88) .OK).map List.length = Except.ok 87
    ∧ format_complete ['é'] (some 88) .OK
        ≠ .ok (['é'] ++ List.replicate 79 ' ' ++ "[ DONE ]".toList) := by
  refine ⟨by decide, rfl, by decide⟩

/-- C6 amended: for labels whose characters are all one UTF-8 byte (e.g.
ASCII), on a width-88 terminal (equivalently, when the terminal width is
undetectable): a label of length L ≤ 80 yields exactly the label
left-justified, space-padded to 80 characters, followed by `[ DONE ]` —
88 visible characters; a label of length L > 80 is padded only up to 80 and
truncated to exactly 80 characters before the tag.  (Color escape codes are
cosmetic and excluded.)  For labels with multi-byte characters the visible
width can fall short, since padding counts characters but truncation counts
bytes. -/
theorem format_complete_width88_singlebyte (label : List Char)
    (h : ∀ c ∈ label, c.utf8Size = 1) :
    format_complete label none .OK = format_complete label (some 88) .OK
    ∧ (label.length ≤ 80 →
        format_complete label (some 88) .OK
          = .ok (label ++ List.replicate (80 - label.length) ' '
              ++ "[ DONE ]".toList)
        ∧ (label ++ List.replicate (80 - label.length) ' '
            ++ "[ DONE ]".toList).length = 88)
    ∧ (80 < label.length →
        format_complete label (some 88) .OK
          = .ok (label.take 80 ++ "[ DONE ]".toList)
        ∧ (label.take 80 ++ "[ DONE ]".toList).length = 88) := by
  have htag : ("[ ".toList ++ CompleteStatus.tagText .OK ++ " ]".toList)
      = "[ DONE ]".toList := by decide
  have hdone : ("[ DONE ]".toList : List Char).length = 8 := by decide
  refine ⟨rfl, fun hle => ?_, fun hgt => ?_⟩
  · have h80 : utf8Length (padRight80 label) = 80 :=
      utf8Length_padRight80_onebyte label h hle
    constructor
    · rw [format_complete_some88, h80]
      show Except.ok (padRight80 label
          ++ ("[ ".toList ++ CompleteStatus.tagText .OK ++ " ]".toList)) = _
      rw [htag]
      simp [padRight80, List.append_assoc]
    · simp only [List.length_append, List.length_replicate, hdone]
      omega
  · have hpad : padRight80 label = label := by
      simp [padRight80, Nat.sub_eq_zero_of_le (Nat.le_of_lt hgt)]
    have hlen : utf8Length label = label.length := utf8Length_onebyte label h
    have hslice : byteSlice label 80 = .ok (label.take 80) :=
      byteSlice_onebyte label 80 h (by omega)
    constructor
    · rw [format_complete_some88, hpad, hlen, if_pos hgt, hslice]
      show Except.ok (label.take 80
          ++ ("[ ".toList ++ CompleteStatus.tagText .OK ++ " ]".toList)) = _
      rw [htag]
    · have htake : (label.take 80).length = 80 := by
        simp only [List.length_take]
        omega
      simp only [List.length_append, htake, hdone]

/-- C6 witness: the spec's scenario label, at 13 characters, padded with
67 spaces to 80 and tagged, 88 characters in all. -/
theorem format_complete_width88_singlebyte_witness :
    format_complete "Build project".toList (some 88) .OK
      = .ok ("Build project".toList ++ List.replicate 67 ' '
          ++ "[ DONE ]".toList) :=
  ((format_complete_width88_singlebyte "Build project".toList
    (by decide)).2.1 (by decide)).1

/-- C7 counterexample: with an override installed (`true`), an `INFO`-level
message admitted by minimum `INFO` is written to standard output and the
override receives nothing: the `status!` macro expands to a direct
`println!`, bypassing `do_println`, at every level — not only `error!`. -/
theorem leveled_output_bypasses_override :
    status_at_or_above_println none .INFO .INFO true "disk full".toList
      ⟨[], []⟩ = ⟨[], ["disk full".toList]⟩ := rfl

/-- C7 amended: every completion message passes through the single funnel
`do_println` — with an override installed it is delivered to the override
callback and standard output is untouched — but every leveled log message
(at all four levels, not only the error level) is written directly to
standard output and bypasses the funnel: the override sequence is never
extended by a leveled logging operation. -/
theorem output_funnel_amended :
    (∀ (label : List Char) (status : CompleteStatus) (tc : Option Nat)
        (st : OutputState) (out : List Char),
      format_complete label tc status = .ok out →
      print_complete label status tc true st
        = .ok { st with overrideOut := st.overrideOut ++ [out] })
    ∧ (∀ (env : Option (List Char)) (M C : LogEntryLevel) (ov : Bool)
        (msg : List Char) (st : OutputState),
        (status_at_or_above_println env M C ov msg st).overrideOut
          = st.overrideOut) := by
  constructor
  · intro label status tc st out hfmt
    simp [print_complete, hfmt, do_println, Except.map]
  · intro env M C ov msg st
    unfold status_at_or_above_println
    cases LogEntryLevel.from_env env M with
    | ok m =>
        by_cases hc : C.ordinal ≤ m.ordinal
        · simp [hc, status_println]
        · simp [hc]
    | error e => rfl

/-- C7 witness: a concrete completion line routed to the override. -/
theorem output_funnel_amended_witness :
    print_complete "task".toList .OK (some 88) true ⟨[], []⟩
      = .ok ⟨["task".toList ++ List.replicate 76 ' ' ++ "[ DONE ]".toList],
          []⟩ :=
  output_funnel_amended.1 "task".toList .OK (some 88) ⟨[], []⟩
    ("task".toList ++ List.replicate 76 ' ' ++ "[ DONE ]".toList) (by decide)

/-- C8: with an override installed that records each received string in
order, starting from an empty record, one call to `print_done` produces a
record holding exactly one entry, equal to the string `format_complete`
returns for the same label, `OK` status and terminal width; standard output
receives nothing. -/
theorem print_done_override_single_entry (label : List Char)
    (tc : Option Nat) (out : List Char)
    (hfmt : format_complete label tc .OK = .ok out) :
    print_done label tc true ⟨[], []⟩ = .ok ⟨[out], []⟩ := by
  simp [print_done, print_complete, hfmt, do_println, Except.map]

/-- C8 witness: `print_done("task")` on a width-88 terminal delivers the one
formatted line to the override. -/
theorem print_done_override_single_entry_witness :
    print_done "task".toList (some 88) true ⟨[], []⟩
      = .ok ⟨["task".toList ++ List.replicate 76 ' ' ++ "[ DONE ]".toList],
          []⟩ :=
  print_done_override_single_entry "task".toList (some 88)
    ("task".toList ++ List.replicate 76 ' ' ++ "[ DONE ]".toList) (by decide)
